import Mathlib

/-!
Shallow embedding of the reconciliation core of the `praier` repository
(`src/praier/monitor.py`, data classes from `src/praier/github_client.py`).

Python dictionaries are modelled as association lists with
insert-or-replace-in-place semantics (`dictInsert`), Python sets as lists
with `setAdd`, `datetime` values as integer seconds, and the GitHub client
as an oracle (`Gateway`) whose fetch operations return `Option` (`none`
models a raised exception) and whose mutating operations return `Bool`
(the success flag the code branches on).  Every mutating Gateway call the
monitor performs is recorded in an output list of `GatewayCall`s.
-/

namespace Praier

/-- Python-dict insert: replace the binding in place if the key is present,
otherwise append at the end (insertion order preserved). -/
def dictInsert {κ α : Type} [DecidableEq κ] (k : κ) (v : α) : List (κ × α) → List (κ × α)
  | [] => [(k, v)]
  | (k2, v2) :: rest => if k2 = k then (k, v) :: rest else (k2, v2) :: dictInsert k v rest

/-- Python-dict lookup: first binding for the key. -/
def dictLookup {κ α : Type} [DecidableEq κ] (k : κ) : List (κ × α) → Option α
  | [] => none
  | (k2, v) :: rest => if k2 = k then some v else dictLookup k rest

/-- Python dict comprehension `{key(x): x for x in xs}`: left-to-right insert. -/
def dictOf {κ α : Type} [DecidableEq κ] (key : α → κ) (xs : List α) : List (κ × α) :=
  xs.foldl (fun d x => dictInsert (key x) x d) []

/-- Python-set add: no duplicates, membership is what matters. -/
def setAdd {α : Type} [DecidableEq α] (s : List α) (x : α) : List α :=
  if x ∈ s then s else s ++ [x]

/-- PullRequest dataclass of `github_client.py` (timestamps as integers). -/
structure PullRequest where
  id : String
  number : Nat
  title : String
  url : String
  state : String
  head_sha : String
  base_ref : String
  head_ref : String
  author : String
  repository : String
  created_at : Int
  updated_at : Int
  mergeable : Option Bool
  draft : Bool
deriving DecidableEq

/-- CheckRun dataclass of `github_client.py`. -/
structure CheckRun where
  id : String
  name : String
  status : String
  conclusion : Option String
  url : String
  pull_request_number : Option Nat
deriving DecidableEq

/-- WorkflowRun dataclass of `github_client.py`. -/
structure WorkflowRun where
  id : String
  name : String
  status : String
  conclusion : Option String
  url : String
  head_sha : String
  pull_requests : List Nat
deriving DecidableEq

/-- PRState dataclass of `monitor.py`. -/
structure PRState where
  pr : PullRequest
  last_check_runs : List (String × CheckRun)
  last_workflow_runs : List (String × WorkflowRun)
  last_updated : Int
  copilot_requested : Bool
  approved_runs : List String
deriving DecidableEq

/-- Fresh `PRState(pr=pr)` with the dataclass defaults, created at time `now`. -/
def initPRState (pr : PullRequest) (now : Int) : PRState :=
  { pr := pr
    last_check_runs := []
    last_workflow_runs := []
    last_updated := now
    copilot_requested := false
    approved_runs := [] }

/-- Action toggles of MonitoringConfig that the reconciliation core reads. -/
structure MonitoringConfig where
  auto_approve_actions : Bool
  auto_fix_with_copilot : Bool
deriving DecidableEq

/-- Record of one mutating Gateway call performed by the monitor. -/
inductive GatewayCall where
  | approveRun (repository : String) (run_id : String)
  | requestFix (repository : String) (pr_number : Nat) (failing : List CheckRun)
deriving DecidableEq

/-- Oracle for the GitHub client: fetches may fail (`none` models an
exception), mutating calls report success as a `Bool`. -/
structure Gateway where
  pull_requests : String → Option (List PullRequest)
  workflow_runs : String → String → Option (List WorkflowRun)
  check_runs : String → String → Option (List CheckRun)
  approve : String → String → Bool
  request_fix : String → Nat → List CheckRun → Bool

/-- Loop body of `process_workflow_runs` (monitor.py lines 229-244): walk the
fetched runs, skipping runs not associated with this PR, runs already
approved, and runs whose status is not queued/waiting; otherwise call
`approve_workflow_run` and, on success, add the id to the approved set. -/
def approveLoop (approve : String → String → Bool) (repository : String) (prNumber : Nat) :
    List WorkflowRun → List String → List String × List GatewayCall
  | [], approved => (approved, [])
  | run :: rest, approved =>
    if prNumber ∉ run.pull_requests then
      approveLoop approve repository prNumber rest approved
    else if run.id ∈ approved then
      approveLoop approve repository prNumber rest approved
    else if run.status ∈ ["queued", "waiting"] then
      if approve repository run.id then
        ((approveLoop approve repository prNumber rest (setAdd approved run.id)).1,
          GatewayCall.approveRun repository run.id ::
            (approveLoop approve repository prNumber rest (setAdd approved run.id)).2)
      else
        ((approveLoop approve repository prNumber rest approved).1,
          GatewayCall.approveRun repository run.id ::
            (approveLoop approve repository prNumber rest approved).2)
    else
      approveLoop approve repository prNumber rest approved

/-- `PRMonitor.process_workflow_runs` (monitor.py lines 214-247). -/
def process_workflow_runs (cfg : MonitoringConfig) (approve : String → String → Bool)
    (repository : String) (pr : PullRequest) (workflow_runs : List WorkflowRun)
    (st : PRState) : PRState × List GatewayCall :=
  if !cfg.auto_approve_actions then (st, [])
  else
    let res := approveLoop approve repository pr.number workflow_runs st.approved_runs
    ({ st with
        approved_runs := res.1
        last_workflow_runs := dictOf WorkflowRun.id workflow_runs }, res.2)

/-- Failing-check filter of `process_check_runs` (monitor.py lines 265-269). -/
def failing_checks (check_runs : List CheckRun) : List CheckRun :=
  check_runs.filter fun c => c.status == "completed" && c.conclusion == some "failure"

/-- Fix-request rule of `process_check_runs` (monitor.py lines 271-277): when
there are failing checks and no fix was requested for the current snapshot,
call `request_copilot_fix` and set the flag on success. -/
def fixStep (request_fix : String → Nat → List CheckRun → Bool) (repository : String)
    (pr : PullRequest) (failing : List CheckRun) (st : PRState) :
    PRState × List GatewayCall :=
  if !failing.isEmpty && !st.copilot_requested then
    (if request_fix repository pr.number failing then
      { st with copilot_requested := true }
    else st,
    [GatewayCall.requestFix repository pr.number failing])
  else (st, [])

/-- Reset rule of `process_check_runs` (monitor.py lines 279-281): clear the
flag when the stored snapshot's head sha differs from the fetched PR's. -/
def shaReset (pr : PullRequest) (st : PRState) : PRState :=
  if st.pr.head_sha ≠ pr.head_sha then { st with copilot_requested := false } else st

/-- `PRMonitor.process_check_runs` (monitor.py lines 249-284): the fix-request
rule, then (after it) the head-sha reset rule, then overwrite the tracked
check runs. -/
def process_check_runs (cfg : MonitoringConfig) (request_fix : String → Nat → List CheckRun → Bool)
    (repository : String) (pr : PullRequest) (check_runs : List CheckRun)
    (st : PRState) : PRState × List GatewayCall :=
  if !cfg.auto_fix_with_copilot then (st, [])
  else
    let r := fixStep request_fix repository pr (failing_checks check_runs) st
    ({ shaReset pr r.1 with last_check_runs := dictOf CheckRun.id check_runs }, r.2)

/-- Per-server slice of the state store: `pr_number -> PRState`. -/
abbrev PRStates := List (Nat × PRState)

/-- Get-or-create step of `process_pull_request` (monitor.py lines 161-164). -/
def seenOrNew (pr : PullRequest) (now : Int) (states : PRStates) : PRStates :=
  if (dictLookup pr.number states).isNone then
    dictInsert pr.number (initPRState pr now) states
  else states

/-- `PRMonitor.process_pull_request` (monitor.py lines 155-212): create the
state on first observation, overwrite `pr` and `last_updated` in place, then
fetch runs and checks (an exception leaves only those in-place updates) and
run the two processing steps. -/
def process_pull_request (cfg : MonitoringConfig) (gw : Gateway) (now : Int)
    (repository : String) (pr : PullRequest) (states : PRStates) :
    PRStates × List GatewayCall :=
  let states1 := seenOrNew pr now states
  let st0 := (dictLookup pr.number states1).getD (initPRState pr now)
  let st1 := { st0 with pr := pr, last_updated := now }
  match gw.workflow_runs repository pr.head_sha, gw.check_runs repository pr.head_sha with
  | some wruns, some cruns =>
    let r1 := process_workflow_runs cfg gw.approve repository pr wruns st1
    let r2 := process_check_runs cfg gw.request_fix repository pr cruns r1.1
    (dictInsert pr.number r2.1 states1, r1.2 ++ r2.2)
  | some _, none => (dictInsert pr.number st1 states1, [])
  | none, _ => (dictInsert pr.number st1 states1, [])

/-- Sequential loop over the fetched open PRs (monitor.py lines 149-150). -/
def process_pull_requests (cfg : MonitoringConfig) (gw : Gateway) (now : Int)
    (repository : String) : List PullRequest → PRStates → PRStates × List GatewayCall
  | [], states => (states, [])
  | pr :: rest, states =>
    let r1 := process_pull_request cfg gw now repository pr states
    let r2 := process_pull_requests cfg gw now repository rest r1.1
    (r2.1, r1.2 ++ r2.2)

/-- `PRMonitor.monitor_repository` (monitor.py lines 139-153): a failed
open-PR listing aborts only this repository's pass (caught exception). -/
def monitor_repository (cfg : MonitoringConfig) (gw : Gateway) (now : Int)
    (repository : String) (states : PRStates) : PRStates × List GatewayCall :=
  match gw.pull_requests repository with
  | none => (states, [])
  | some prs => process_pull_requests cfg gw now repository prs states

/-- `PRMonitor.monitor_server` (monitor.py lines 119-137): each repository is
reconciled inside its own try/except, so repositories are independent. -/
def monitor_server (cfg : MonitoringConfig) (gw : Gateway) (now : Int) :
    List String → PRStates → PRStates × List GatewayCall
  | [], states => (states, [])
  | repo :: rest, states =>
    let r1 := monitor_repository cfg gw now repo states
    let r2 := monitor_server cfg gw now rest r1.1
    (r2.1, r1.2 ++ r2.2)

/-- Whole state store: `server_name -> pr_number -> PRState`
(monitor.py lines 37-39). -/
abbrev Store := List (String × PRStates)

/-- `PRMonitor.monitor_cycle` (monitor.py lines 105-117): one pass per
server; each server's pass reads and writes only its own slice of the
store, so the concurrent gather is modelled as sequential composition. -/
def monitor_cycle (cfg : MonitoringConfig) (gws : String → Gateway) (now : Int)
    (repositories : List String) : List String → Store → Store × List GatewayCall
  | [], store => (store, [])
  | s :: rest, store =>
    let slice := (dictLookup s store).getD []
    let r1 := monitor_server cfg (gws s) now repositories slice
    let r2 := monitor_cycle cfg gws now repositories rest (dictInsert s r1.1 store)
    (r2.1, r1.2 ++ r2.2)

/-- `PRMonitor.cleanup_stale_prs` (monitor.py lines 306-321): delete, in every
server's slice, exactly the entries with `last_updated < now - max_age_hours`;
the sweep performs no Gateway calls. -/
def cleanup_stale_prs (now : Int) (max_age_hours : Int) (store : Store) :
    Store × List GatewayCall :=
  let cutoff := now - max_age_hours * 3600
  (store.map (fun sp =>
    (sp.1, sp.2.filter (fun p => decide (cutoff ≤ p.2.last_updated)))), [])

/-- Composition of consecutive `process_workflow_runs` passes: each tick
feeds the updated state into the next, and the Gateway calls accumulate. -/
def run_passes (cfg : MonitoringConfig) (approve : String → String → Bool)
    (repository : String) (pr : PullRequest) :
    List (List WorkflowRun) → PRState → PRState × List GatewayCall
  | [], st => (st, [])
  | runs :: rest, st =>
    let r1 := process_workflow_runs cfg approve repository pr runs st
    let r2 := run_passes cfg approve repository pr rest r1.1
    (r2.1, r1.2 ++ r2.2)

/-- Number of `approveRun` calls for a given repository and run id in a
recorded call list. -/
def countApprove (calls : List GatewayCall) (repository run_id : String) : Nat :=
  calls.count (GatewayCall.approveRun repository run_id)

/-! Concrete fixtures used by the counterexample and witness theorems. -/

/-- Sample pull request #42 at head `abc123` (the spec §8 scenario). -/
def prAbc : PullRequest :=
  { id := "1", number := 42, title := "Test PR", url := "u", state := "open"
    head_sha := "abc123", base_ref := "main", head_ref := "feature", author := "user"
    repository := "owner/repo", created_at := 0, updated_at := 0
    mergeable := none, draft := false }

/-- The same pull request after a push: head is now `def456`. -/
def prDef : PullRequest := { prAbc with head_sha := "def456" }

/-- Failing check run `check-1`. -/
def check1 : CheckRun :=
  { id := "check-1", name := "Unit Tests", status := "completed"
    conclusion := some "failure", url := "u", pull_request_number := none }

/-- Queued workflow run `run-1` associated with PR #42. -/
def run1 : WorkflowRun :=
  { id := "run-1", name := "CI", status := "queued", conclusion := none
    url := "u", head_sha := "abc123", pull_requests := [42] }

/-- Config with both automatic actions enabled. -/
def cfgBoth : MonitoringConfig :=
  { auto_approve_actions := true, auto_fix_with_copilot := true }

/-- Config with both automatic actions disabled. -/
def cfgOff : MonitoringConfig :=
  { auto_approve_actions := false, auto_fix_with_copilot := false }

/-- Config with auto-approval disabled but auto-fix enabled. -/
def cfgNoApprove : MonitoringConfig :=
  { auto_approve_actions := false, auto_fix_with_copilot := true }

/-- Gateway whose fetches succeed with empty listings and whose mutating
calls succeed. -/
def gwEmpty : Gateway :=
  { pull_requests := fun _ => some []
    workflow_runs := fun _ _ => some []
    check_runs := fun _ _ => some []
    approve := fun _ _ => true
    request_fix := fun _ _ _ => true }

/-- Gateway for the spec §8 tick-1 situation: PR #42 open, `run-1` queued,
`check-1` failing, all mutating calls succeed. -/
def gwTick1 : Gateway :=
  { pull_requests := fun _ => some [prAbc]
    workflow_runs := fun _ _ => some [run1]
    check_runs := fun _ _ => some [check1]
    approve := fun _ _ => true
    request_fix := fun _ _ _ => true }

/-- Gateway for the spec §8 tick-3 situation: PR #42 now at head `def456`,
`check-1` still failing, no runs returned for the new head. -/
def gwTick3 : Gateway :=
  { pull_requests := fun _ => some [prDef]
    workflow_runs := fun _ _ => some []
    check_runs := fun _ _ => some [check1]
    approve := fun _ _ => true
    request_fix := fun _ _ _ => true }

/-- Gateway on which every approval call fails. -/
def gwFail : Gateway :=
  { pull_requests := fun _ => some [prAbc]
    workflow_runs := fun _ _ => some [run1]
    check_runs := fun _ _ => some []
    approve := fun _ _ => false
    request_fix := fun _ _ _ => true }

/-- Stored state of PR #42 after the spec §8 tick 1: snapshot at `abc123`,
fix requested for that head, `run-1` approved. -/
def st42 : PRState :=
  { pr := prAbc
    last_check_runs := dictOf CheckRun.id [check1]
    last_workflow_runs := dictOf WorkflowRun.id [run1]
    last_updated := 100
    copilot_requested := true
    approved_runs := ["run-1"] }

/-- PR #1 of repository `owner/repo1`. -/
def prR1 : PullRequest := { prAbc with number := 1, repository := "owner/repo1", head_sha := "a" }

/-- PR #1 of repository `owner/repo2` — same server, same number, other repo. -/
def prR2 : PullRequest := { prAbc with number := 1, repository := "owner/repo2", head_sha := "b" }

/-- Store slice after processing `owner/repo1` PR #1 on an empty slice. -/
def statesA : PRStates := (process_pull_request cfgOff gwEmpty 0 "owner/repo1" prR1 []).1

/-- Store slice after additionally processing `owner/repo2` PR #1. -/
def statesB : PRStates := (process_pull_request cfgOff gwEmpty 0 "owner/repo2" prR2 statesA).1

/-- Tracked state of a PR numbered 7. -/
def st7 : PRState := initPRState prAbc 0

/-- State still tracking a workflow run `old-run` from a previous tick. -/
def stOld : PRState := { initPRState prAbc 0 with last_workflow_runs := [("old-run", run1)] }

/-- State with a fresh `last_updated` timestamp. -/
def stFresh : PRState := { initPRState prAbc 150000 with last_updated := 150000 }

/-- State with a stale `last_updated` timestamp. -/
def stStale : PRState := { initPRState prAbc 1000 with last_updated := 1000 }

/-- Two-entry store used for the cleanup-sweep witness. -/
def storeC9 : Store := [("srv", [(1, stFresh), (2, stStale)])]

/-- First reconciliation pass over PR #42 on the all-approvals-fail gateway. -/
def pass1C5 : PRStates × List GatewayCall :=
  process_pull_request cfgBoth gwFail 1 "owner/repo" prAbc []

/-- Second consecutive reconciliation pass (same head, run still queued). -/
def pass2C5 : PRStates × List GatewayCall :=
  process_pull_request cfgBoth gwFail 2 "owner/repo" prAbc pass1C5.1

/-- Gateway whose open-PR listing raises for repository `owner/bad` and
succeeds (empty) everywhere else. -/
def gwListFail : Gateway :=
  { pull_requests := fun repo => if repo = "owner/bad" then none else some []
    workflow_runs := fun _ _ => some []
    check_runs := fun _ _ => some []
    approve := fun _ _ => true
    request_fix := fun _ _ _ => true }

/-! Helper lemmas about the dictionary and set model. -/

theorem dictLookup_insert_self {κ α : Type} [DecidableEq κ] (k : κ) (v : α)
    (d : List (κ × α)) : dictLookup k (dictInsert k v d) = some v := by
  induction d with
  | nil => simp [dictInsert, dictLookup]
  | cons hd tl ih =>
    obtain ⟨k2, v2⟩ := hd
    by_cases h : k2 = k <;> simp [dictInsert, dictLookup, h, ih]

theorem dictLookup_insert_ne {κ α : Type} [DecidableEq κ] {k k2 : κ} (v : α)
    (d : List (κ × α)) (h : k2 ≠ k) :
    dictLookup k2 (dictInsert k v d) = dictLookup k2 d := by
  induction d with
  | nil => simp [dictInsert, dictLookup, Ne.symm h]
  | cons hd tl ih =>
    obtain ⟨k3, v3⟩ := hd
    by_cases h3 : k3 = k
    · subst h3
      simp [dictInsert, dictLookup, Ne.symm h]
    · by_cases h4 : k3 = k2 <;> simp [dictInsert, dictLookup, h3, h4, h, Ne.symm h, ih]

theorem dictLookup_insert_isSome {κ α : Type} [DecidableEq κ] {n : κ} (k : κ) (v : α)
    (d : List (κ × α)) (h : (dictLookup n d).isSome) :
    (dictLookup n (dictInsert k v d)).isSome := by
  by_cases hk : n = k
  · subst hk
    simp [dictLookup_insert_self]
  · rw [dictLookup_insert_ne v d hk]
    exact h

theorem mem_setAdd {α : Type} [DecidableEq α] (s : List α) (x y : α) :
    y ∈ setAdd s x ↔ y ∈ s ∨ y = x := by
  unfold setAdd
  by_cases h : x ∈ s
  · simp only [if_pos h]
    constructor
    · exact Or.inl
    · rintro (hy | rfl)
      · exact hy
      · exact h
  · simp [if_neg h]

theorem subset_setAdd {α : Type} [DecidableEq α] (s : List α) (x : α) :
    s ⊆ setAdd s x := by
  intro y hy
  exact (mem_setAdd s x y).mpr (Or.inl hy)

theorem dictLookup_eq_none_of_not_mem_keys {κ α : Type} [DecidableEq κ] {n : κ}
    (d : List (κ × α)) (h : n ∉ d.map Prod.fst) : dictLookup n d = none := by
  induction d with
  | nil => simp [dictLookup]
  | cons hd tl ih =>
    obtain ⟨k, v⟩ := hd
    simp only [List.map_cons, List.mem_cons] at h
    push_neg at h
    rw [dictLookup, if_neg (Ne.symm h.1)]
    exact ih h.2

theorem dictLookup_none_filter {κ α : Type} [DecidableEq κ] {n : κ} (p : κ × α → Bool)
    (d : List (κ × α)) (h : dictLookup n d = none) :
    dictLookup n (d.filter p) = none := by
  induction d with
  | nil => simp [dictLookup]
  | cons hd tl ih =>
    obtain ⟨k, v⟩ := hd
    by_cases hk : k = n
    · simp [dictLookup, hk] at h
    · simp only [dictLookup, if_neg hk] at h
      by_cases hp : p (k, v) <;> simp [List.filter, hp, dictLookup, hk, ih h]

theorem dictLookup_filter_kept {κ α : Type} [DecidableEq κ] {n : κ} {v : α}
    (p : α → Bool) (d : List (κ × α)) (hnd : (d.map Prod.fst).Nodup)
    (h : dictLookup n d = some v) (hp : p v = true) :
    dictLookup n (d.filter (fun x => p x.2)) = some v := by
  induction d with
  | nil => simp [dictLookup] at h
  | cons hd tl ih =>
    obtain ⟨k, w⟩ := hd
    simp only [List.map_cons, List.nodup_cons] at hnd
    by_cases hk : k = n
    · subst hk
      simp only [dictLookup, if_true, eq_self_iff_true, Option.some.injEq] at h
      subst h
      simp [List.filter, hp, dictLookup]
    · simp only [dictLookup, if_neg hk] at h
      by_cases hq : p w <;>
        simp [List.filter, hq, dictLookup, hk, ih hnd.2 h]

theorem dictLookup_filter_dropped {κ α : Type} [DecidableEq κ] {n : κ} {v : α}
    (p : α → Bool) (d : List (κ × α)) (hnd : (d.map Prod.fst).Nodup)
    (h : dictLookup n d = some v) (hp : p v = false) :
    dictLookup n (d.filter (fun x => p x.2)) = none := by
  induction d with
  | nil => simp [dictLookup] at h
  | cons hd tl ih =>
    obtain ⟨k, w⟩ := hd
    simp only [List.map_cons, List.nodup_cons] at hnd
    by_cases hk : k = n
    · subst hk
      simp only [dictLookup, if_true, eq_self_iff_true, Option.some.injEq] at h
      subst h
      simp only [List.filter, hp]
      exact dictLookup_none_filter _ tl (dictLookup_eq_none_of_not_mem_keys tl hnd.1)
    · simp only [dictLookup, if_neg hk] at h
      by_cases hq : p w <;>
        simp [List.filter, hq, dictLookup, hk, ih hnd.2 h]

theorem dictLookup_map_snd {κ α β : Type} [DecidableEq κ] (k : κ) (f : α → β)
    (d : List (κ × α)) :
    dictLookup k (d.map (fun sp => (sp.1, f sp.2))) = (dictLookup k d).map f := by
  induction d with
  | nil => simp [dictLookup]
  | cons hd tl ih =>
    obtain ⟨k2, v⟩ := hd
    by_cases h : k2 = k <;> simp [dictLookup, h, ih]

/-! Structural lemmas about the processing steps. -/

theorem process_workflow_runs_state (cfg : MonitoringConfig) (a : String → String → Bool)
    (repo : String) (pr : PullRequest) (w : List WorkflowRun) (st : PRState) :
    (process_workflow_runs cfg a repo pr w st).1 =
      if cfg.auto_approve_actions then
        { st with
            approved_runs := (approveLoop a repo pr.number w st.approved_runs).1
            last_workflow_runs := dictOf WorkflowRun.id w }
      else st := by
  cases h : cfg.auto_approve_actions <;> simp [process_workflow_runs, h]

theorem fixStep_preserves (rf : String → Nat → List CheckRun → Bool) (repo : String)
    (pr : PullRequest) (failing : List CheckRun) (st : PRState) :
    (fixStep rf repo pr failing st).1.pr = st.pr ∧
    (fixStep rf repo pr failing st).1.last_updated = st.last_updated ∧
    (fixStep rf repo pr failing st).1.approved_runs = st.approved_runs ∧
    (fixStep rf repo pr failing st).1.last_workflow_runs = st.last_workflow_runs ∧
    (fixStep rf repo pr failing st).1.last_check_runs = st.last_check_runs := by
  unfold fixStep
  split
  · split <;> simp
  · simp

theorem shaReset_preserves (pr : PullRequest) (st : PRState) :
    (shaReset pr st).pr = st.pr ∧
    (shaReset pr st).last_updated = st.last_updated ∧
    (shaReset pr st).approved_runs = st.approved_runs ∧
    (shaReset pr st).last_workflow_runs = st.last_workflow_runs ∧
    (shaReset pr st).last_check_runs = st.last_check_runs := by
  unfold shaReset
  split <;> simp

theorem process_check_runs_preserves (cfg : MonitoringConfig)
    (rf : String → Nat → List CheckRun → Bool) (repo : String) (pr : PullRequest)
    (c : List CheckRun) (st : PRState) :
    (process_check_runs cfg rf repo pr c st).1.pr = st.pr ∧
    (process_check_runs cfg rf repo pr c st).1.last_updated = st.last_updated ∧
    (process_check_runs cfg rf repo pr c st).1.approved_runs = st.approved_runs ∧
    (process_check_runs cfg rf repo pr c st).1.last_workflow_runs = st.last_workflow_runs := by
  unfold process_check_runs
  split
  · simp
  · have h1 := fixStep_preserves rf repo pr (failing_checks c) st
    have h2 := shaReset_preserves pr (fixStep rf repo pr (failing_checks c) st).1
    simp only []
    refine ⟨?_, ?_, ?_, ?_⟩ <;> simp [h2.1, h2.2.1, h2.2.2.1, h2.2.2.2.1,
      h1.1, h1.2.1, h1.2.2.1, h1.2.2.2.1]

theorem process_workflow_runs_preserves (cfg : MonitoringConfig)
    (a : String → String → Bool) (repo : String) (pr : PullRequest)
    (w : List WorkflowRun) (st : PRState) :
    (process_workflow_runs cfg a repo pr w st).1.pr = st.pr ∧
    (process_workflow_runs cfg a repo pr w st).1.last_updated = st.last_updated ∧
    (process_workflow_runs cfg a repo pr w st).1.copilot_requested = st.copilot_requested ∧
    (process_workflow_runs cfg a repo pr w st).1.last_check_runs = st.last_check_runs := by
  rw [process_workflow_runs_state]
  split <;> simp

theorem seenOrNew_frame (pr : PullRequest) (now : Int) (states : PRStates) {n : Nat}
    (h : n ≠ pr.number) :
    dictLookup n (seenOrNew pr now states) = dictLookup n states := by
  unfold seenOrNew
  split
  · exact dictLookup_insert_ne _ states h
  · rfl

theorem process_pull_request_frame (cfg : MonitoringConfig) (gw : Gateway) (now : Int)
    (repository : String) (pr : PullRequest) (states : PRStates) {n : Nat}
    (h : n ≠ pr.number) :
    dictLookup n (process_pull_request cfg gw now repository pr states).1 =
      dictLookup n states := by
  unfold process_pull_request
  cases hw : gw.workflow_runs repository pr.head_sha <;>
    cases hc : gw.check_runs repository pr.head_sha <;>
    simp only [] <;>
    rw [dictLookup_insert_ne _ _ h, seenOrNew_frame pr now states h]

theorem process_pull_request_isSome (cfg : MonitoringConfig) (gw : Gateway) (now : Int)
    (repository : String) (pr : PullRequest) (states : PRStates) (n : Nat)
    (h : (dictLookup n states).isSome) :
    (dictLookup n (process_pull_request cfg gw now repository pr states).1).isSome := by
  by_cases hn : n = pr.number
  · subst hn
    unfold process_pull_request
    cases hw : gw.workflow_runs repository pr.head_sha <;>
      cases hc : gw.check_runs repository pr.head_sha <;>
      simp [dictLookup_insert_self]
  · rw [process_pull_request_frame cfg gw now repository pr states hn]
    exact h

theorem process_pull_requests_isSome (cfg : MonitoringConfig) (gw : Gateway) (now : Int)
    (repository : String) (prs : List PullRequest) (states : PRStates) (n : Nat)
    (h : (dictLookup n states).isSome) :
    (dictLookup n (process_pull_requests cfg gw now repository prs states).1).isSome := by
  induction prs generalizing states with
  | nil => exact h
  | cons pr rest ih =>
    exact ih _ (process_pull_request_isSome cfg gw now repository pr states n h)

theorem process_pull_requests_frame (cfg : MonitoringConfig) (gw : Gateway) (now : Int)
    (repository : String) (prs : List PullRequest) (states : PRStates) {n : Nat}
    (h : n ∉ prs.map PullRequest.number) :
    dictLookup n (process_pull_requests cfg gw now repository prs states).1 =
      dictLookup n states := by
  induction prs generalizing states with
  | nil => rfl
  | cons pr rest ih =>
    simp only [List.map_cons, List.mem_cons] at h
    push_neg at h
    simp only [process_pull_requests]
    rw [ih _ h.2, process_pull_request_frame cfg gw now repository pr states h.1]

theorem process_check_runs_last (cfg : MonitoringConfig)
    (rf : String → Nat → List CheckRun → Bool) (repo : String) (pr : PullRequest)
    (c : List CheckRun) (st : PRState) (h : cfg.auto_fix_with_copilot = true) :
    (process_check_runs cfg rf repo pr c st).1.last_check_runs = dictOf CheckRun.id c := by
  simp [process_check_runs, h]

theorem process_pull_request_lookup (cfg : MonitoringConfig) (gw : Gateway) (now : Int)
    (repository : String) (pr : PullRequest) (states : PRStates)
    (wruns : List WorkflowRun) (cruns : List CheckRun)
    (hw : gw.workflow_runs repository pr.head_sha = some wruns)
    (hc : gw.check_runs repository pr.head_sha = some cruns) :
    ∃ st, dictLookup pr.number (process_pull_request cfg gw now repository pr states).1 = some st ∧
      st.pr = pr ∧ st.last_updated = now ∧
      (cfg.auto_approve_actions = true →
        st.last_workflow_runs = dictOf WorkflowRun.id wruns) ∧
      (cfg.auto_fix_with_copilot = true →
        st.last_check_runs = dictOf CheckRun.id cruns) := by
  unfold process_pull_request
  rw [hw, hc]
  simp only []
  refine ⟨_, dictLookup_insert_self _ _ _, ?_, ?_, ?_, ?_⟩
  · rw [(process_check_runs_preserves _ _ _ _ _ _).1,
      (process_workflow_runs_preserves _ _ _ _ _ _).1]
  · rw [(process_check_runs_preserves _ _ _ _ _ _).2.1,
      (process_workflow_runs_preserves _ _ _ _ _ _).2.1]
  · intro ht
    rw [(process_check_runs_preserves _ _ _ _ _ _).2.2.2]
    rw [process_workflow_runs_state]
    simp [ht]
  · intro ht
    exact process_check_runs_last _ _ _ _ _ _ ht

/-! Lemmas about the approval loop. -/

theorem approveLoop_mem_mono (a : String → String → Bool) (repo : String) (prN : Nat)
    (runs : List WorkflowRun) (approved : List String) {x : String}
    (hx : x ∈ approved) : x ∈ (approveLoop a repo prN runs approved).1 := by
  induction runs generalizing approved with
  | nil => exact hx
  | cons run rest ih =>
    unfold approveLoop
    split
    · exact ih _ hx
    split
    · exact ih _ hx
    split
    · split
      · exact ih _ (subset_setAdd _ _ hx)
      · exact ih _ hx
    · exact ih _ hx

theorem approveLoop_calls_sound (a : String → String → Bool) (repo : String) (prN : Nat)
    (runs : List WorkflowRun) (approved : List String) :
    ∀ c ∈ (approveLoop a repo prN runs approved).2, ∃ run, run ∈ runs ∧
      c = GatewayCall.approveRun repo run.id ∧ run.status ∈ ["queued", "waiting"] ∧
      prN ∈ run.pull_requests ∧ run.id ∉ approved := by
  induction runs generalizing approved with
  | nil => intro c hc; exact absurd hc (by simp [approveLoop])
  | cons run rest ih =>
    intro c hc
    unfold approveLoop at hc
    split at hc
    · obtain ⟨r2, hr2, hrest⟩ := ih approved c hc
      exact ⟨r2, List.mem_cons_of_mem _ hr2, hrest⟩
    split at hc
    · obtain ⟨r2, hr2, hrest⟩ := ih approved c hc
      exact ⟨r2, List.mem_cons_of_mem _ hr2, hrest⟩
    split at hc
    · split at hc
      · rcases List.mem_cons.mp hc with hc1 | hc2
        · rename_i h1 h2 h3 h4
          exact ⟨run, List.mem_cons_self _ _, hc1, h3, not_not.mp h1, h2⟩
        · obtain ⟨r2, hr2, heq, hst, hmm, hnot⟩ := ih _ c hc2
          exact ⟨r2, List.mem_cons_of_mem _ hr2, heq, hst, hmm,
            fun hmem => hnot (subset_setAdd _ _ hmem)⟩
      · rcases List.mem_cons.mp hc with hc1 | hc2
        · rename_i h1 h2 h3 h4
          exact ⟨run, List.mem_cons_self _ _, hc1, h3, not_not.mp h1, h2⟩
        · obtain ⟨r2, hr2, hrest⟩ := ih approved c hc2
          exact ⟨r2, List.mem_cons_of_mem _ hr2, hrest⟩
    · obtain ⟨r2, hr2, hrest⟩ := ih approved c hc
      exact ⟨r2, List.mem_cons_of_mem _ hr2, hrest⟩

theorem approveLoop_count_zero_of_mem (a : String → String → Bool) (repo : String)
    (prN : Nat) (runs : List WorkflowRun) (approved : List String) (id : String)
    (h : id ∈ approved) :
    countApprove (approveLoop a repo prN runs approved).2 repo id = 0 := by
  rw [countApprove, List.count_eq_zero]
  intro hmem
  obtain ⟨run, -, heq, -, -, hnot⟩ := approveLoop_calls_sound a repo prN runs approved _ hmem
  injection heq with h1 h2
  subst h2
  exact hnot h

theorem approveLoop_approved_of_fail (a : String → String → Bool) (repo : String)
    (prN : Nat) (runs : List WorkflowRun) (approved : List String) (id : String)
    (hfail : a repo id = false) :
    id ∈ (approveLoop a repo prN runs approved).1 ↔ id ∈ approved := by
  induction runs generalizing approved with
  | nil => exact Iff.rfl
  | cons run rest ih =>
    unfold approveLoop
    split
    · exact ih approved
    split
    · exact ih approved
    split
    · split
      · rename_i h1 h2 h3 hap
        have hne : id ≠ run.id := by
          intro hEq
          rw [hEq, hap] at hfail
          cases hfail
        show id ∈ (approveLoop a repo prN rest (setAdd approved run.id)).1 ↔ id ∈ approved
        rw [ih (setAdd approved run.id), mem_setAdd]
        simp [hne]
      · exact ih approved
    · exact ih approved

theorem approveLoop_calls_complete (a : String → String → Bool) (repo : String)
    (prN : Nat) (runs : List WorkflowRun) (approved : List String) (run : WorkflowRun)
    (hfail : a repo run.id = false) (hrun : run ∈ runs)
    (hq : run.status ∈ ["queued", "waiting"]) (hm : prN ∈ run.pull_requests)
    (hn : run.id ∉ approved) :
    GatewayCall.approveRun repo run.id ∈ (approveLoop a repo prN runs approved).2 := by
  induction runs generalizing approved with
  | nil => cases hrun
  | cons head rest ih =>
    rcases List.mem_cons.mp hrun with rfl | htail
    · unfold approveLoop
      rw [if_neg (not_not_intro hm), if_neg hn, if_pos hq,
        if_neg (by simp [hfail] : ¬a repo run.id = true)]
      exact List.mem_cons_self _ _
    · unfold approveLoop
      split
      · exact ih _ htail hn
      split
      · exact ih _ htail hn
      split
      · split
        · rename_i h1 h2 h3 hap
          have hne : run.id ≠ head.id := by
            intro hEq
            rw [hEq, hap] at hfail
            cases hfail
          refine List.mem_cons_of_mem _ (ih _ htail ?_)
          rw [mem_setAdd]
          rintro (hmem | hEq)
          · exact hn hmem
          · exact hne hEq
        · exact List.mem_cons_of_mem _ (ih _ htail hn)
      · exact ih _ htail hn

theorem countApprove_append (l1 l2 : List GatewayCall) (repo id : String) :
    countApprove (l1 ++ l2) repo id = countApprove l1 repo id + countApprove l2 repo id :=
  List.count_append _ _ _

theorem approveLoop_count_of_success (a : String → String → Bool) (repo : String)
    (prN : Nat) (runs : List WorkflowRun) (approved : List String) (id : String)
    (hok : a repo id = true) :
    countApprove (approveLoop a repo prN runs approved).2 repo id ≤ 1 ∧
    (id ∈ (approveLoop a repo prN runs approved).1 ↔
      id ∈ approved ∨ countApprove (approveLoop a repo prN runs approved).2 repo id = 1) := by
  induction runs generalizing approved with
  | nil => simp [approveLoop, countApprove]
  | cons run rest ih =>
    unfold approveLoop
    split
    · exact ih approved
    split
    · exact ih approved
    split
    · split
      · rename_i h1 h2 h3 hap
        by_cases hid : run.id = id
        · subst hid
          have hz := approveLoop_count_zero_of_mem a repo prN rest (setAdd approved run.id)
            run.id ((mem_setAdd approved run.id run.id).mpr (Or.inr rfl))
          have hmem := approveLoop_mem_mono a repo prN rest (setAdd approved run.id)
            ((mem_setAdd approved run.id run.id).mpr (Or.inr rfl))
          constructor
          · simp [countApprove, List.count_cons, countApprove] at hz ⊢
            simp [hz]
          · simp [countApprove, List.count_cons] at hz ⊢
            simp [hz, hmem, h2]
        · have hid2 : id ≠ run.id := Ne.symm hid
          obtain ⟨hb, hiff⟩ := ih (setAdd approved run.id)
          have hcnt : countApprove (GatewayCall.approveRun repo run.id ::
              (approveLoop a repo prN rest (setAdd approved run.id)).2) repo id =
              countApprove (approveLoop a repo prN rest (setAdd approved run.id)).2 repo id := by
            simp [countApprove, List.count_cons, hid2]
          constructor
          · show countApprove (GatewayCall.approveRun repo run.id ::
              (approveLoop a repo prN rest (setAdd approved run.id)).2) repo id ≤ 1
            rw [hcnt]
            exact hb
          · show id ∈ (approveLoop a repo prN rest (setAdd approved run.id)).1 ↔
              id ∈ approved ∨ countApprove (GatewayCall.approveRun repo run.id ::
                (approveLoop a repo prN rest (setAdd approved run.id)).2) repo id = 1
            rw [hcnt, hiff, mem_setAdd]
            simp [hid2]
      · rename_i h1 h2 h3 hap
        have hid : run.id ≠ id := by
          intro hEq
          rw [hEq, hok] at hap
          exact hap rfl
        have hid2 : id ≠ run.id := Ne.symm hid
        obtain ⟨hb, hiff⟩ := ih approved
        have hcnt : countApprove (GatewayCall.approveRun repo run.id ::
            (approveLoop a repo prN rest approved).2) repo id =
            countApprove (approveLoop a repo prN rest approved).2 repo id := by
          simp [countApprove, List.count_cons, hid2]
        constructor
        · show countApprove (GatewayCall.approveRun repo run.id ::
            (approveLoop a repo prN rest approved).2) repo id ≤ 1
          rw [hcnt]
          exact hb
        · show id ∈ (approveLoop a repo prN rest approved).1 ↔
            id ∈ approved ∨ countApprove (GatewayCall.approveRun repo run.id ::
              (approveLoop a repo prN rest approved).2) repo id = 1
          rw [hcnt]
          exact hiff
    · exact ih approved

/-! Lifts of the loop lemmas to `process_workflow_runs`. -/

theorem process_workflow_runs_calls (cfg : MonitoringConfig) (a : String → String → Bool)
    (repo : String) (pr : PullRequest) (w : List WorkflowRun) (st : PRState) :
    (process_workflow_runs cfg a repo pr w st).2 =
      if cfg.auto_approve_actions then (approveLoop a repo pr.number w st.approved_runs).2
      else [] := by
  cases h : cfg.auto_approve_actions <;> simp [process_workflow_runs, h]

theorem process_workflow_runs_approved_mono (cfg : MonitoringConfig)
    (a : String → String → Bool) (repo : String) (pr : PullRequest)
    (w : List WorkflowRun) (st : PRState) {x : String} (hx : x ∈ st.approved_runs) :
    x ∈ (process_workflow_runs cfg a repo pr w st).1.approved_runs := by
  rw [process_workflow_runs_state]
  split
  · simpa using approveLoop_mem_mono a repo pr.number w st.approved_runs hx
  · exact hx

theorem process_workflow_runs_count_le (cfg : MonitoringConfig) (a : String → String → Bool)
    (repo : String) (pr : PullRequest) (w : List WorkflowRun) (st : PRState) (id : String)
    (hok : a repo id = true) :
    countApprove (process_workflow_runs cfg a repo pr w st).2 repo id ≤ 1 ∧
    (id ∈ (process_workflow_runs cfg a repo pr w st).1.approved_runs ↔
      id ∈ st.approved_runs ∨
      countApprove (process_workflow_runs cfg a repo pr w st).2 repo id = 1) := by
  rw [process_workflow_runs_calls, process_workflow_runs_state]
  cases h : cfg.auto_approve_actions
  · simp [countApprove]
  · simpa using approveLoop_count_of_success a repo pr.number w st.approved_runs id hok

theorem process_workflow_runs_count_zero (cfg : MonitoringConfig) (a : String → String → Bool)
    (repo : String) (pr : PullRequest) (w : List WorkflowRun) (st : PRState) (id : String)
    (h : id ∈ st.approved_runs) :
    countApprove (process_workflow_runs cfg a repo pr w st).2 repo id = 0 := by
  rw [process_workflow_runs_calls]
  cases hcfg : cfg.auto_approve_actions
  · simp [countApprove]
  · simpa using approveLoop_count_zero_of_mem a repo pr.number w st.approved_runs id h

theorem process_workflow_runs_calls_sound (cfg : MonitoringConfig) (a : String → String → Bool)
    (repo : String) (pr : PullRequest) (w : List WorkflowRun) (st : PRState) :
    ∀ c ∈ (process_workflow_runs cfg a repo pr w st).2, ∃ run, run ∈ w ∧
      c = GatewayCall.approveRun repo run.id ∧ run.status ∈ ["queued", "waiting"] ∧
      pr.number ∈ run.pull_requests ∧ run.id ∉ st.approved_runs := by
  rw [process_workflow_runs_calls]
  cases hcfg : cfg.auto_approve_actions
  · intro c hc
    simp at hc
  · intro c hc
    simp only [if_true] at hc
    exact approveLoop_calls_sound a repo pr.number w st.approved_runs c (by simpa using hc)

theorem process_workflow_runs_calls_complete (cfg : MonitoringConfig)
    (a : String → String → Bool) (repo : String) (pr : PullRequest)
    (w : List WorkflowRun) (st : PRState) (run : WorkflowRun)
    (ht : cfg.auto_approve_actions = true) (hfail : a repo run.id = false)
    (hrun : run ∈ w) (hq : run.status ∈ ["queued", "waiting"])
    (hm : pr.number ∈ run.pull_requests) (hn : run.id ∉ st.approved_runs) :
    GatewayCall.approveRun repo run.id ∈ (process_workflow_runs cfg a repo pr w st).2 := by
  rw [process_workflow_runs_calls, ht]
  simpa using approveLoop_calls_complete a repo pr.number w st.approved_runs run
    hfail hrun hq hm hn

theorem process_workflow_runs_fail_not_approved (cfg : MonitoringConfig)
    (a : String → String → Bool) (repo : String) (pr : PullRequest)
    (w : List WorkflowRun) (st : PRState) (id : String)
    (hfail : a repo id = false) (hn : id ∉ st.approved_runs) :
    id ∉ (process_workflow_runs cfg a repo pr w st).1.approved_runs := by
  rw [process_workflow_runs_state]
  split
  · intro hmem
    have hmem2 : id ∈ (approveLoop a repo pr.number w st.approved_runs).1 := by
      simpa using hmem
    exact hn ((approveLoop_approved_of_fail a repo pr.number w st.approved_runs id hfail).mp hmem2)
  · exact hn

/-! Multi-pass lemmas. -/

theorem run_passes_zero (cfg : MonitoringConfig) (a : String → String → Bool)
    (repo : String) (pr : PullRequest) (passes : List (List WorkflowRun))
    (st : PRState) (id : String) (h : id ∈ st.approved_runs) :
    countApprove (run_passes cfg a repo pr passes st).2 repo id = 0 ∧
    id ∈ (run_passes cfg a repo pr passes st).1.approved_runs := by
  induction passes generalizing st with
  | nil => exact ⟨rfl, h⟩
  | cons runs rest ih =>
    obtain ⟨ih1, ih2⟩ := ih (process_workflow_runs cfg a repo pr runs st).1
      (process_workflow_runs_approved_mono cfg a repo pr runs st h)
    have h1 := process_workflow_runs_count_zero cfg a repo pr runs st id h
    constructor
    · show countApprove ((process_workflow_runs cfg a repo pr runs st).2 ++
        (run_passes cfg a repo pr rest (process_workflow_runs cfg a repo pr runs st).1).2)
        repo id = 0
      rw [countApprove_append, h1, ih1]
    · exact ih2

theorem run_passes_count_le (cfg : MonitoringConfig) (a : String → String → Bool)
    (repo : String) (pr : PullRequest) (passes : List (List WorkflowRun))
    (st : PRState) (id : String) (hok : a repo id = true) :
    countApprove (run_passes cfg a repo pr passes st).2 repo id ≤ 1 ∧
    (id ∈ (run_passes cfg a repo pr passes st).1.approved_runs ↔
      id ∈ st.approved_runs ∨
      countApprove (run_passes cfg a repo pr passes st).2 repo id = 1) := by
  induction passes generalizing st with
  | nil => simp [run_passes, countApprove]
  | cons runs rest ih =>
    obtain ⟨hb1, hiff1⟩ := process_workflow_runs_count_le cfg a repo pr runs st id hok
    obtain ⟨hb2, hiff2⟩ := ih (process_workflow_runs cfg a repo pr runs st).1
    have htot : countApprove (run_passes cfg a repo pr (runs :: rest) st).2 repo id =
        countApprove (process_workflow_runs cfg a repo pr runs st).2 repo id +
        countApprove (run_passes cfg a repo pr rest
          (process_workflow_runs cfg a repo pr runs st).1).2 repo id := by
      show countApprove ((process_workflow_runs cfg a repo pr runs st).2 ++
        (run_passes cfg a repo pr rest (process_workflow_runs cfg a repo pr runs st).1).2)
        repo id = _
      rw [countApprove_append]
    have hfin : id ∈ (run_passes cfg a repo pr (runs :: rest) st).1.approved_runs ↔
        id ∈ (run_passes cfg a repo pr rest
          (process_workflow_runs cfg a repo pr runs st).1).1.approved_runs := Iff.rfl
    by_cases hmem : id ∈ (process_workflow_runs cfg a repo pr runs st).1.approved_runs
    · have hz : countApprove (run_passes cfg a repo pr rest
          (process_workflow_runs cfg a repo pr runs st).1).2 repo id = 0 :=
        (run_passes_zero cfg a repo pr rest _ id hmem).1
      constructor
      · rw [htot, hz]
        omega
      · rw [hfin, hiff2, htot, hz]
        constructor
        · intro _
          rcases hiff1.mp hmem with hst | hc1
          · exact Or.inl hst
          · right
            omega
        · intro _
          exact Or.inl hmem
    · have hforward : ¬(id ∈ st.approved_runs ∨
          countApprove (process_workflow_runs cfg a repo pr runs st).2 repo id = 1) :=
        fun hOr => hmem (hiff1.mpr hOr)
      push_neg at hforward
      have hc1 : countApprove (process_workflow_runs cfg a repo pr runs st).2 repo id = 0 := by
        have hne := hforward.2
        omega
      constructor
      · rw [htot, hc1]
        omega
      · rw [hfin, hiff2, htot, hc1]
        simp [hmem, hforward.1]

theorem run_passes_no_qualifying (cfg : MonitoringConfig) (a : String → String → Bool)
    (repo : String) (pr : PullRequest) (passes : List (List WorkflowRun))
    (st : PRState) (id : String)
    (h : ∀ runs ∈ passes, ∀ run ∈ runs, run.id = id →
      ¬(run.status ∈ ["queued", "waiting"] ∧ pr.number ∈ run.pull_requests)) :
    countApprove (run_passes cfg a repo pr passes st).2 repo id = 0 := by
  induction passes generalizing st with
  | nil => rfl
  | cons runs rest ih =>
    have h1 : countApprove (process_workflow_runs cfg a repo pr runs st).2 repo id = 0 := by
      rw [countApprove, List.count_eq_zero]
      intro hmem
      obtain ⟨run, hrun, heq, hst, hm, -⟩ :=
        process_workflow_runs_calls_sound cfg a repo pr runs st _ hmem
      injection heq with e1 e2
      exact h runs (List.mem_cons_self _ _) run hrun e2.symm ⟨hst, hm⟩
    have h2 := ih (process_workflow_runs cfg a repo pr runs st).1
      (fun runs2 hr2 => h runs2 (List.mem_cons_of_mem _ hr2))
    show countApprove ((process_workflow_runs cfg a repo pr runs st).2 ++
      (run_passes cfg a repo pr rest (process_workflow_runs cfg a repo pr runs st).1).2)
      repo id = 0
    rw [countApprove_append, h1, h2]

/-! Monotonicity of the approved set through a whole pass (for claim C7). -/

theorem seenOrNew_of_some (pr : PullRequest) (now : Int) (states : PRStates)
    {stn : PRState} (hn : dictLookup pr.number states = some stn) :
    seenOrNew pr now states = states := by
  unfold seenOrNew
  simp [hn]

theorem process_pull_request_approved_mono (cfg : MonitoringConfig) (gw : Gateway)
    (now : Int) (repository : String) (pr : PullRequest) (states : PRStates)
    (n : Nat) (stn : PRState) (y : String)
    (hn : dictLookup n states = some stn) (hy : y ∈ stn.approved_runs) :
    ∃ stn2, dictLookup n (process_pull_request cfg gw now repository pr states).1 = some stn2 ∧
      y ∈ stn2.approved_runs := by
  by_cases hnum : n = pr.number
  · subst hnum
    unfold process_pull_request
    rw [seenOrNew_of_some pr now states hn]
    simp only [hn, Option.getD_some]
    cases hw : gw.workflow_runs repository pr.head_sha with
    | none => exact ⟨_, dictLookup_insert_self _ _ _, hy⟩
    | some wruns =>
      cases hc : gw.check_runs repository pr.head_sha with
      | none => exact ⟨_, dictLookup_insert_self _ _ _, hy⟩
      | some cruns =>
        refine ⟨_, dictLookup_insert_self _ _ _, ?_⟩
        rw [(process_check_runs_preserves _ _ _ _ _ _).2.2.1]
        exact process_workflow_runs_approved_mono _ _ _ _ _ _ hy
  · exact ⟨stn, by
      rw [process_pull_request_frame cfg gw now repository pr states hnum]
      exact hn, hy⟩

theorem process_pull_requests_approved_mono (cfg : MonitoringConfig) (gw : Gateway)
    (now : Int) (repository : String) (prs : List PullRequest) (states : PRStates)
    (n : Nat) (stn : PRState) (y : String)
    (hn : dictLookup n states = some stn) (hy : y ∈ stn.approved_runs) :
    ∃ stn2, dictLookup n (process_pull_requests cfg gw now repository prs states).1 = some stn2 ∧
      y ∈ stn2.approved_runs := by
  induction prs generalizing states stn with
  | nil => exact ⟨stn, hn, hy⟩
  | cons pr rest ih =>
    obtain ⟨st1, hst1, hy1⟩ :=
      process_pull_request_approved_mono cfg gw now repository pr states n stn y hn hy
    exact ih (process_pull_request cfg gw now repository pr states).1 st1 hst1 hy1

/-! Claim theorems. -/

/-- Claim C1 (code bug, spec §8 tick-3 scenario evaluated on the code): the
stored snapshot holds head `abc123` with `copilot_requested = true`; the PR
is fetched at new head `def456` with `check-1` still failing.  The claim
requires the flag to be reset before the fix rule, yielding exactly one
further requestFix call; the code instead performs zero Gateway calls and
leaves the flag true, because `process_pull_request` overwrites the stored
snapshot before `process_check_runs` compares head shas — and even when
`process_check_runs` is called with the old snapshot (third and fourth
conjuncts), the reset runs after the fix rule, so no call is made on the
tick of the push. -/
theorem C1_push_never_rearms_fix_request :
    (process_pull_request cfgBoth gwTick3 200 "owner/repo" prDef [(42, st42)]).2 = [] ∧
    (dictLookup 42 (process_pull_request cfgBoth gwTick3 200 "owner/repo" prDef
        [(42, st42)]).1).map PRState.copilot_requested = some true ∧
    (process_check_runs cfgBoth (fun _ _ _ => true) "owner/repo" prDef [check1] st42).2 = [] ∧
    (process_check_runs cfgBoth (fun _ _ _ => true) "owner/repo" prDef [check1]
        st42).1.copilot_requested = false :=
  ⟨rfl, rfl, rfl, rfl⟩

/-- Counterexample to claim C2 as stated: under one server, PR #1 of
`owner/repo1` and PR #1 of `owner/repo2` do not get distinct state entries:
processing the second overwrites the snapshot stored for the first, and the
store slice holds a single entry for number 1. -/
theorem C2_counterexample_same_number_collides :
    ((dictLookup 1 statesA).map fun st => st.pr.repository) = some "owner/repo1" ∧
    ((dictLookup 1 statesB).map fun st => st.pr.repository) = some "owner/repo2" ∧
    statesB.length = 1 :=
  ⟨rfl, rfl, rfl⟩

/-- Claim C2 (amended): a PRState entry is identified by (server, PR number)
only.  A reconciliation pass for a PR writes the entry at the PR's number —
its snapshot becomes that PR regardless of which repository the pass is
for — and leaves every other number's entry untouched; hence same-numbered
PRs of two repositories under one server share a single entry. -/
theorem C2_amended_store_key_is_number (cfg : MonitoringConfig) (gw : Gateway)
    (now : Int) (repository : String) (pr : PullRequest) (states : PRStates)
    (wruns : List WorkflowRun) (cruns : List CheckRun) (n : Nat)
    (hw : gw.workflow_runs repository pr.head_sha = some wruns)
    (hc : gw.check_runs repository pr.head_sha = some cruns)
    (hn : n ≠ pr.number) :
    (∃ st, dictLookup pr.number (process_pull_request cfg gw now repository pr states).1 =
        some st ∧ st.pr = pr) ∧
    dictLookup n (process_pull_request cfg gw now repository pr states).1 =
      dictLookup n states := by
  obtain ⟨st, hst, hpr, -⟩ :=
    process_pull_request_lookup cfg gw now repository pr states wruns cruns hw hc
  exact ⟨⟨st, hst, hpr⟩, process_pull_request_frame cfg gw now repository pr states hn⟩

/-- Witness for C2 (amended): processing `owner/repo2` PR #1 writes the entry
at number 1 and leaves the entry at number 7 alone. -/
theorem C2_amended_witness :
    (∃ st, dictLookup 1 (process_pull_request cfgOff gwEmpty 0 "owner/repo2" prR2
        [(7, st7)]).1 = some st ∧ st.pr = prR2) ∧
    dictLookup 7 (process_pull_request cfgOff gwEmpty 0 "owner/repo2" prR2
        [(7, st7)]).1 = dictLookup 7 [(7, st7)] :=
  C2_amended_store_key_is_number cfgOff gwEmpty 0 "owner/repo2" prR2 [(7, st7)]
    [] [] 7 rfl rfl (by decide)

/-- Counterexample to claim C3 as stated: PR 7 has disappeared from the
open-PR listing (the listing is empty), yet the reconciliation pass leaves
its state entry in the store untouched. -/
theorem C3_counterexample_no_delete_on_disappear :
    gwEmpty.pull_requests "owner/repo" = some [] ∧
    dictLookup 7 (monitor_repository cfgOff gwEmpty 5 "owner/repo" [(7, st7)]).1 = some st7 :=
  ⟨rfl, rfl⟩

/-- Claim C3 (amended): a reconciliation pass never deletes a PRState entry:
every key present before the pass is still present after it, and an entry
whose PR number is absent from the fetched open listing is left exactly as
it was.  Entries are removed only by the explicit staleness cleanup sweep. -/
theorem C3_amended_pass_never_deletes (cfg : MonitoringConfig) (gw : Gateway)
    (now : Int) (repository : String) (states : PRStates) (n : Nat) (st : PRState)
    (h : dictLookup n states = some st) :
    (dictLookup n (monitor_repository cfg gw now repository states).1).isSome ∧
    (∀ prs, gw.pull_requests repository = some prs →
      n ∉ prs.map PullRequest.number →
      dictLookup n (monitor_repository cfg gw now repository states).1 = some st) := by
  constructor
  · unfold monitor_repository
    cases hp : gw.pull_requests repository with
    | none => simp [h]
    | some prs =>
      exact process_pull_requests_isSome cfg gw now repository prs states n (by simp [h])
  · intro prs hp hn
    unfold monitor_repository
    rw [hp, process_pull_requests_frame cfg gw now repository prs states hn]
    exact h

/-- Witness for C3 (amended): the entry for PR 7 survives a pass whose
listing is empty. -/
theorem C3_amended_witness :
    (dictLookup 7 (monitor_repository cfgOff gwEmpty 5 "owner/repo" [(7, st7)]).1).isSome ∧
    dictLookup 7 (monitor_repository cfgOff gwEmpty 5 "owner/repo" [(7, st7)]).1 = some st7 := by
  have h := C3_amended_pass_never_deletes cfgOff gwEmpty 5 "owner/repo" [(7, st7)] 7 st7 rfl
  exact ⟨h.1, h.2 [] rfl (by decide)⟩

/-- Counterexample to claim C4 as stated: with `auto_approve_actions`
disabled the pass fetches an empty fresh set of workflow runs, yet the
stored `last_workflow_runs` still holds the `old-run` entry from a previous
tick — the mapping is not replaced "regardless of which actions were
taken". -/
theorem C4_counterexample_stale_map_survives :
    gwEmpty.workflow_runs "owner/repo" prAbc.head_sha = some [] ∧
    (dictLookup 42 (process_pull_request cfgNoApprove gwEmpty 9 "owner/repo" prAbc
        [(42, stOld)]).1).map PRState.last_workflow_runs = some [("old-run", run1)] :=
  ⟨rfl, rfl⟩

/-- Claim C4 (amended): on a reconciliation pass whose fetches succeed and
whose action toggles are enabled, the stored mappings equal exactly the
freshly fetched sets (full replacement) and the snapshot and last-seen
timestamp are updated. -/
theorem C4_amended_full_replace (cfg : MonitoringConfig) (gw : Gateway) (now : Int)
    (repository : String) (pr : PullRequest) (states : PRStates)
    (wruns : List WorkflowRun) (cruns : List CheckRun)
    (hw : gw.workflow_runs repository pr.head_sha = some wruns)
    (hc : gw.check_runs repository pr.head_sha = some cruns)
    (ha : cfg.auto_approve_actions = true)
    (hf : cfg.auto_fix_with_copilot = true) :
    ∃ st, dictLookup pr.number (process_pull_request cfg gw now repository pr states).1 =
        some st ∧
      st.pr = pr ∧ st.last_updated = now ∧
      st.last_workflow_runs = dictOf WorkflowRun.id wruns ∧
      st.last_check_runs = dictOf CheckRun.id cruns := by
  obtain ⟨st, hst, hpr, hupd, hwm, hcm⟩ :=
    process_pull_request_lookup cfg gw now repository pr states wruns cruns hw hc
  exact ⟨st, hst, hpr, hupd, hwm ha, hcm hf⟩

/-- Witness for C4 (amended) on the spec §8 tick-1 fixture. -/
theorem C4_amended_witness :
    ∃ st, dictLookup 42 (process_pull_request cfgBoth gwTick1 10 "owner/repo" prAbc []).1 =
        some st ∧
      st.pr = prAbc ∧ st.last_updated = 10 ∧
      st.last_workflow_runs = dictOf WorkflowRun.id [run1] ∧
      st.last_check_runs = dictOf CheckRun.id [check1] :=
  C4_amended_full_replace cfgBoth gwTick1 10 "owner/repo" prAbc [] [run1] [check1]
    rfl rfl rfl rfl

/-- Counterexample to claim C5 as stated: `run-1` stays queued with the head
commit unchanged across two consecutive reconciliation passes, but because
the approval call fails it is retried, so `approveRun` is called twice for
the same run id — not at most once. -/
theorem C5_counterexample_failed_call_repeats :
    gwFail.approve "owner/repo" "run-1" = false ∧
    pass1C5.2 ++ pass2C5.2 =
      [GatewayCall.approveRun "owner/repo" "run-1",
        GatewayCall.approveRun "owner/repo" "run-1"] ∧
    countApprove (pass1C5.2 ++ pass2C5.2) "owner/repo" "run-1" = 2 :=
  ⟨rfl, rfl, rfl⟩

/-- Claim C5 (amended): across any sequence of consecutive passes, provided
the approval call for a run id succeeds, `approveRun` is called at most once
for that id; an id already in `approved_runs` is never submitted again; and
an id none of whose fetched run entries is queued/waiting with this PR's
number in its association set is never submitted at all. -/
theorem C5_amended_at_most_once_when_successful (cfg : MonitoringConfig)
    (a : String → String → Bool) (repository : String) (pr : PullRequest)
    (passes : List (List WorkflowRun)) (st : PRState) (run_id : String) :
    (a repository run_id = true →
      countApprove (run_passes cfg a repository pr passes st).2 repository run_id ≤ 1) ∧
    (run_id ∈ st.approved_runs →
      countApprove (run_passes cfg a repository pr passes st).2 repository run_id = 0) ∧
    ((∀ runs ∈ passes, ∀ run ∈ runs, run.id = run_id →
        ¬(run.status ∈ ["queued", "waiting"] ∧ pr.number ∈ run.pull_requests)) →
      countApprove (run_passes cfg a repository pr passes st).2 repository run_id = 0) :=
  ⟨fun hok => (run_passes_count_le cfg a repository pr passes st run_id hok).1,
    fun hmem => (run_passes_zero cfg a repository pr passes st run_id hmem).1,
    fun hq => run_passes_no_qualifying cfg a repository pr passes st run_id hq⟩

/-- Witness for C5 (amended): with a succeeding approval oracle, two passes
over the queued `run-1` yield at most one approval call. -/
theorem C5_amended_witness :
    ((fun _ _ => true) "owner/repo" "run-1") = true ∧
    countApprove (run_passes cfgBoth (fun _ _ => true) "owner/repo" prAbc
      [[run1], [run1]] (initPRState prAbc 0)).2 "owner/repo" "run-1" ≤ 1 :=
  ⟨rfl, (C5_amended_at_most_once_when_successful cfgBoth (fun _ _ => true) "owner/repo"
    prAbc [[run1], [run1]] (initPRState prAbc 0) "run-1").1 rfl⟩

/-- Claim C6: when the approval call for a run id fails, the id is not added
to `approved_runs` during that pass, and on a later tick on which the run is
still queued/waiting (and still associated with the PR) the approval is
attempted again for the same id. -/
theorem C6_failed_approval_retried (cfg : MonitoringConfig) (a : String → String → Bool)
    (repository : String) (pr : PullRequest) (run : WorkflowRun)
    (runs1 runs2 : List WorkflowRun) (st : PRState)
    (ht : cfg.auto_approve_actions = true)
    (hfail : a repository run.id = false)
    (h1 : run ∈ runs1) (h2 : run ∈ runs2)
    (hq : run.status ∈ ["queued", "waiting"])
    (hm : pr.number ∈ run.pull_requests)
    (hn : run.id ∉ st.approved_runs) :
    run.id ∉ (process_workflow_runs cfg a repository pr runs1 st).1.approved_runs ∧
    GatewayCall.approveRun repository run.id ∈
      (process_workflow_runs cfg a repository pr runs1 st).2 ∧
    GatewayCall.approveRun repository run.id ∈
      (process_workflow_runs cfg a repository pr runs2
        (process_workflow_runs cfg a repository pr runs1 st).1).2 := by
  have hnot1 := process_workflow_runs_fail_not_approved cfg a repository pr runs1 st
    run.id hfail hn
  exact ⟨hnot1,
    process_workflow_runs_calls_complete cfg a repository pr runs1 st run ht hfail h1 hq hm hn,
    process_workflow_runs_calls_complete cfg a repository pr runs2 _ run ht hfail h2 hq hm hnot1⟩

/-- Witness for C6 on the concrete queued `run-1` with a failing oracle. -/
theorem C6_witness :
    "run-1" ∉ (process_workflow_runs cfgBoth (fun _ _ => false) "owner/repo" prAbc [run1]
      (initPRState prAbc 0)).1.approved_runs ∧
    GatewayCall.approveRun "owner/repo" "run-1" ∈
      (process_workflow_runs cfgBoth (fun _ _ => false) "owner/repo" prAbc [run1]
        (initPRState prAbc 0)).2 ∧
    GatewayCall.approveRun "owner/repo" "run-1" ∈
      (process_workflow_runs cfgBoth (fun _ _ => false) "owner/repo" prAbc [run1]
        (process_workflow_runs cfgBoth (fun _ _ => false) "owner/repo" prAbc [run1]
          (initPRState prAbc 0)).1).2 :=
  C6_failed_approval_retried cfgBoth (fun _ _ => false) "owner/repo" prAbc run1 [run1]
    [run1] (initPRState prAbc 0) rfl rfl (List.mem_singleton.mpr rfl)
    (List.mem_singleton.mpr rfl) (by decide) (by decide) (by decide)

/-- Claim C7: the approved-run set of a live PRState grows monotonically: an
id present before `process_workflow_runs` is present after it, and an id
present in a tracked entry before a whole repository pass is still present
in that entry after the pass. -/
theorem C7_approved_runs_monotone (cfg : MonitoringConfig) (a : String → String → Bool)
    (repository : String) (pr : PullRequest) (wruns : List WorkflowRun) (st : PRState)
    (x : String) (gw : Gateway) (now : Int) (states : PRStates) (n : Nat)
    (stn : PRState) (y : String)
    (hx : x ∈ st.approved_runs)
    (hn : dictLookup n states = some stn) (hy : y ∈ stn.approved_runs) :
    x ∈ (process_workflow_runs cfg a repository pr wruns st).1.approved_runs ∧
    ∃ stn2, dictLookup n (monitor_repository cfg gw now repository states).1 = some stn2 ∧
      y ∈ stn2.approved_runs := by
  refine ⟨process_workflow_runs_approved_mono cfg a repository pr wruns st hx, ?_⟩
  unfold monitor_repository
  cases hp : gw.pull_requests repository with
  | none => exact ⟨stn, hn, hy⟩
  | some prs =>
    exact process_pull_requests_approved_mono cfg gw now repository prs states n stn y hn hy

/-- Witness for C7: `run-1` stays approved through a pass over PR #42. -/
theorem C7_witness :
    "run-1" ∈ (process_workflow_runs cfgBoth (fun _ _ => true) "owner/repo" prAbc [run1]
      st42).1.approved_runs ∧
    ∃ stn2, dictLookup 42 (monitor_repository cfgBoth gwTick1 50 "owner/repo"
      [(42, st42)]).1 = some stn2 ∧ "run-1" ∈ stn2.approved_runs :=
  C7_approved_runs_monotone cfgBoth (fun _ _ => true) "owner/repo" prAbc [run1] st42
    "run-1" gwTick1 50 [(42, st42)] 42 st42 "run-1" (by decide) rfl (by decide)

/-- Claim C8: a failing open-PR listing for one repository aborts only that
repository's pass: its stored states are unchanged and no calls are made,
the server's tick is equivalent to one over the remaining repositories, and
a sibling server's slice of the store is reconciled exactly as if it ran
alone. -/
theorem C8_repo_failure_isolated (cfg : MonitoringConfig) (gw : Gateway)
    (gws : String → Gateway) (now : Int) (r : String) (repos : List String)
    (states : PRStates) (s1 s2 : String) (store : Store)
    (h : gw.pull_requests r = none) (hs : s1 ≠ s2) :
    monitor_repository cfg gw now r states = (states, []) ∧
    monitor_server cfg gw now repos states =
      monitor_server cfg gw now (repos.filter (fun x => decide (x ≠ r))) states ∧
    dictLookup s2 (monitor_cycle cfg gws now repos [s1, s2] store).1 =
      some (monitor_server cfg (gws s2) now repos ((dictLookup s2 store).getD [])).1 := by
  have hidg : ∀ sts : PRStates, monitor_repository cfg gw now r sts = (sts, []) := by
    intro sts
    unfold monitor_repository
    rw [h]
  refine ⟨hidg states, ?_, ?_⟩
  · induction repos generalizing states with
    | nil => rfl
    | cons repo rest ih =>
      by_cases hr : repo = r
      · subst hr
        have hstep : monitor_server cfg gw now (repo :: rest) states =
            monitor_server cfg gw now rest states := by
          show ((monitor_server cfg gw now rest
              (monitor_repository cfg gw now repo states).1).1,
            (monitor_repository cfg gw now repo states).2 ++
              (monitor_server cfg gw now rest
                (monitor_repository cfg gw now repo states).1).2) = _
          rw [hidg states]
          simp
        rw [hstep, List.filter_cons]
        have hcond : ¬(decide (repo ≠ repo) = true) := by simp
        rw [if_neg hcond]
        exact ih states
      · rw [List.filter_cons]
        have hkeep : decide (repo ≠ r) = true := by simp [hr]
        simp only [hkeep, if_true]
        show ((monitor_server cfg gw now rest
            (monitor_repository cfg gw now repo states).1).1,
          (monitor_repository cfg gw now repo states).2 ++
            (monitor_server cfg gw now rest
              (monitor_repository cfg gw now repo states).1).2) =
          ((monitor_server cfg gw now (rest.filter (fun x => decide (x ≠ r)))
            (monitor_repository cfg gw now repo states).1).1,
          (monitor_repository cfg gw now repo states).2 ++
            (monitor_server cfg gw now (rest.filter (fun x => decide (x ≠ r)))
              (monitor_repository cfg gw now repo states).1).2)
        rw [ih (monitor_repository cfg gw now repo states).1]
  · simp only [monitor_cycle]
    rw [dictLookup_insert_self, dictLookup_insert_ne _ _ (Ne.symm hs)]

/-- Witness for C8: repository `owner/bad` fails its listing; the pass is a
no-op for it, the server tick equals the tick without it, and server B's
slice is reconciled independently. -/
theorem C8_witness :
    monitor_repository cfgOff gwListFail 3 "owner/bad" [(7, st7)] = ([(7, st7)], []) ∧
    monitor_server cfgOff gwListFail 3 ["owner/bad", "owner/repo"] [(7, st7)] =
      monitor_server cfgOff gwListFail 3
        (["owner/bad", "owner/repo"].filter (fun x => decide (x ≠ "owner/bad")))
        [(7, st7)] ∧
    dictLookup "B" (monitor_cycle cfgOff (fun _ => gwListFail) 3
      ["owner/bad", "owner/repo"] ["A", "B"] []).1 =
      some (monitor_server cfgOff gwListFail 3 ["owner/bad", "owner/repo"]
        ((dictLookup "B" ([] : Store)).getD [])).1 :=
  C8_repo_failure_isolated cfgOff gwListFail (fun _ => gwListFail) 3 "owner/bad"
    ["owner/bad", "owner/repo"] [(7, st7)] "A" "B" [] rfl (by decide)

/-- Claim C9: a cleanup sweep with threshold `maxAge` performs no Gateway
calls, removes exactly the entries whose `last_updated` is older than `now`
minus the threshold, and returns every retained entry with all fields
identical to before. -/
theorem C9_cleanup_sweep_exact (now maxAge : Int) (store : Store) (s : String)
    (slice : PRStates) (n : Nat) (st : PRState)
    (hs : dictLookup s store = some slice)
    (hnd : (slice.map Prod.fst).Nodup)
    (hn : dictLookup n slice = some st) :
    (cleanup_stale_prs now maxAge store).2 = [] ∧
    (st.last_updated < now - maxAge * 3600 →
      (dictLookup s (cleanup_stale_prs now maxAge store).1).map (dictLookup n) =
        some none) ∧
    (now - maxAge * 3600 ≤ st.last_updated →
      (dictLookup s (cleanup_stale_prs now maxAge store).1).map (dictLookup n) =
        some (some st)) := by
  have hmap : dictLookup s (cleanup_stale_prs now maxAge store).1 =
      some (slice.filter
        (fun p => decide (now - maxAge * 3600 ≤ p.2.last_updated))) := by
    unfold cleanup_stale_prs
    simp only []
    rw [dictLookup_map_snd, hs]
    rfl
  refine ⟨rfl, ?_, ?_⟩
  · intro hlt
    rw [hmap]
    have hd := dictLookup_filter_dropped
      (fun v => decide (now - maxAge * 3600 ≤ v.last_updated)) slice hnd hn
      (by simp [not_le.mpr hlt])
    simpa using hd
  · intro hle
    rw [hmap]
    have hk := dictLookup_filter_kept
      (fun v => decide (now - maxAge * 3600 ≤ v.last_updated)) slice hnd hn
      (by simp [hle])
    simpa using hk

/-- Witness for C9: on a concrete two-entry store the stale entry is removed
and the fresh one is retained unmodified. -/
theorem C9_witness :
    stStale.last_updated < 200000 - 24 * 3600 ∧
    (dictLookup "srv" (cleanup_stale_prs 200000 24 storeC9).1).map (dictLookup 2) =
      some none ∧
    (dictLookup "srv" (cleanup_stale_prs 200000 24 storeC9).1).map (dictLookup 1) =
      some (some stFresh) := by
  refine ⟨by decide, ?_, ?_⟩
  · exact (C9_cleanup_sweep_exact 200000 24 storeC9 "srv" [(1, stFresh), (2, stStale)]
      2 stStale rfl (by decide) rfl).2.1 (by decide)
  · exact (C9_cleanup_sweep_exact 200000 24 storeC9 "srv" [(1, stFresh), (2, stStale)]
      1 stFresh rfl (by decide) rfl).2.2 (by decide)

/-- Claim C10: when the corresponding action toggle is disabled the
processing step is skipped entirely, bookkeeping included: with
`auto_approve_actions` false, `process_workflow_runs` makes no Gateway calls
and returns the state unchanged (`last_workflow_runs` and `approved_runs`
untouched); with `auto_fix_with_copilot` false, `process_check_runs` makes
no Gateway calls and returns the state unchanged (`last_check_runs` and
`copilot_requested` untouched). -/
theorem C10_disabled_toggle_skips_step (cfg1 cfg2 : MonitoringConfig)
    (a : String → String → Bool) (rf : String → Nat → List CheckRun → Bool)
    (repository : String) (pr : PullRequest) (wruns : List WorkflowRun)
    (cruns : List CheckRun) (st : PRState)
    (h1 : cfg1.auto_approve_actions = false)
    (h2 : cfg2.auto_fix_with_copilot = false) :
    process_workflow_runs cfg1 a repository pr wruns st = (st, []) ∧
    process_check_runs cfg2 rf repository pr cruns st = (st, []) := by
  constructor
  · simp [process_workflow_runs, h1]
  · simp [process_check_runs, h2]

/-- Witness for C10 at the concrete disabled configuration. -/
theorem C10_witness :
    cfgOff.auto_approve_actions = false ∧ cfgOff.auto_fix_with_copilot = false ∧
    (process_workflow_runs cfgOff (fun _ _ => true) "owner/repo" prAbc [run1]
        (initPRState prAbc 0) = (initPRState prAbc 0, []) ∧
      process_check_runs cfgOff (fun _ _ _ => true) "owner/repo" prAbc [check1]
        (initPRState prAbc 0) = (initPRState prAbc 0, [])) :=
  ⟨rfl, rfl, C10_disabled_toggle_skips_step cfgOff cfgOff (fun _ _ => true)
    (fun _ _ _ => true) "owner/repo" prAbc [run1] [check1] (initPRState prAbc 0) rfl rfl⟩

end Praier
